import Mathlib

/-!
Verification of the viewing-appointment scheduling engine of the
`codercollo/property` backend.

The embedding follows `backend/internal/data/property_schedule.go` (the
`Schedule` struct, `ValidateSchedule`, `ValidateReschedule`, and the
`ScheduleModel` operations `Insert`, `Get`, `UpdateStatus`, `Reschedule`)
and `backend/cmd/api/property_schedule.go` (the handlers, modelled from the
point after authentication/ownership checks, which are external concerns).

Conventions of the embedding:
- `time.Time` instants are modelled as `Int` minutes (an absolute UTC
  minute count); Go's `t.After(u)` is `u < t`, `t.Before(u)` is `t < u`,
  `t.IsZero()` is `t = 0`, and `t.Add(d*time.Minute)` is `t + d`.
  Two hours is 120 minutes.
- The `schedules` table is a `List Schedule`; SQL `WHERE` clauses become
  list filters, `UPDATE ... WHERE` becomes a conditional `List.map`
  together with a row-matched check (the `RETURNING`/`sql.ErrNoRows`
  behaviour), and the serial id / `NOW()` / default-version assignment of
  `INSERT ... RETURNING` is made explicit.
- Database statements in the Go code are separate auto-committed
  statements (no transaction); `ScheduleModel.insert` is therefore the
  sequential composition of its two phases `insertConflict` (the SELECT
  COUNT statement) and `insertWrite` (the INSERT statement), which are
  also exposed separately so that interleavings of concurrent calls can
  be examined.
-/

/-- Mirrors the Go struct `data.Schedule` (property_schedule.go).
Times are `Int` minutes; nullable timestamps are `Option Int`. -/
structure Schedule where
  id : Int
  propertyId : Int
  userId : Int
  agentId : Int
  scheduledAt : Int
  durationMinutes : Int
  status : String
  notes : String
  rescheduleCount : Int
  originalScheduledAt : Option Int
  lastRescheduledAt : Option Int
  createdAt : Int
  version : Int
deriving Repr, DecidableEq

/-- Mirrors `validator.Validator`: a collection of field errors keyed by
field name.  Go uses a `map[string]string`; we keep the entries as a list,
which preserves exactly the information the code consumes (`Valid`, and
key-presence in `AddError`). -/
structure Validator where
  errors : List (String × String)
deriving Repr, DecidableEq

/-- `validator.New()` -/
def Validator.new : Validator := ⟨[]⟩

/-- `v.Valid()`: true iff no errors exist. -/
def Validator.valid (v : Validator) : Bool := v.errors.isEmpty

/-- `v.AddError(key, message)`: adds an error only if the key is absent. -/
def Validator.addError (v : Validator) (key message : String) : Validator :=
  if v.errors.any (fun p => p.1 = key) then v else ⟨v.errors ++ [(key, message)]⟩

/-- `v.Check(ok, key, message)`: adds the error when `ok` is false. -/
def Validator.check (v : Validator) (ok : Bool) (key message : String) : Validator :=
  if ok then v else v.addError key message

/-- `validator.In(value, list...)` -/
def stringIn (value : String) (list : List String) : Bool :=
  list.any (fun s => value = s)

/-- Mirrors `data.ValidateSchedule` (property_schedule.go:56-71).
`now` stands for `time.Now()`. -/
def ValidateSchedule (now : Int) (v : Validator) (s : Schedule) : Validator :=
  let v := v.check (decide (s.propertyId > 0)) "property_id" "must be provided"
  let v := v.check (decide (s.userId > 0)) "user_id" "must be provided"
  let v := v.check (decide (s.agentId > 0)) "agent_id" "must be provided"
  let v := v.check (decide (¬ s.scheduledAt = 0)) "scheduled_at" "must be provided"
  let v := v.check (decide (now < s.scheduledAt)) "scheduled_at" "must be in the future"
  let v := v.check (decide (s.durationMinutes > 0)) "duration_minutes" "must be positive"
  let v := v.check (decide (s.durationMinutes ≤ 480)) "duration_minutes"
    "must not exceed 8 hours"
  let v := v.check (stringIn s.status ["pending", "confirmed", "cancelled", "completed"])
    "status" "must be pending, confirmed, cancelled, or completed"
  v.check (decide (s.notes.length ≤ 1000)) "notes" "must not exceed 1000 characters"

/-- Mirrors `data.ValidateReschedule` (property_schedule.go:74-95).
`now` stands for `time.Now()`; the minimum-notice bound
`schedule.ScheduledAt.Add(-2*time.Hour)` is `s.scheduledAt - 120`. -/
def ValidateReschedule (now : Int) (v : Validator) (s : Schedule)
    (newScheduledAt newDuration : Int) : Validator :=
  let v := v.check (decide (s.rescheduleCount < 3)) "reschedule"
    "maximum reschedule limit (3) reached"
  let v := v.check (stringIn s.status ["pending", "confirmed"]) "status"
    "can only reschedule pending or confirmed appointments"
  let v := v.check (decide (now < newScheduledAt)) "scheduled_at" "must be in the future"
  let v := v.check (decide (¬ newScheduledAt = s.scheduledAt)) "scheduled_at"
    "new time must be different from current time"
  let v := v.check (decide (now < s.scheduledAt - 120)) "reschedule"
    "must reschedule at least 2 hours before appointment"
  let v := v.check (decide (newDuration > 0)) "duration_minutes" "must be positive"
  v.check (decide (newDuration ≤ 480)) "duration_minutes" "must not exceed 8 hours"

/-- The error values of the data layer (property_schedule.go:48-53 and
models.go `ErrEditConflict`). -/
inductive SchedErr where
  | notFound
  | scheduleConflict
  | editConflict
deriving Repr, DecidableEq

/-- The conflict SELECT of `ScheduleModel.Insert` (property_schedule.go:109-126):
count of rows of the agent with status pending/confirmed whose half-open
interval overlaps `[start, endT)` — literally
`scheduled_at < $3 AND scheduled_at + make_interval(mins => duration_minutes) > $2`. -/
def insertConflictCount (db : List Schedule) (agentId start endT : Int) : Nat :=
  (db.filter (fun r => decide (r.agentId = agentId ∧
    (r.status = "pending" ∨ r.status = "confirmed") ∧
    r.scheduledAt < endT ∧ r.scheduledAt + r.durationMinutes > start))).length

/-- Phase 1 of `ScheduleModel.Insert`: the conflict check statement. -/
def insertConflict (db : List Schedule) (agentId start endT : Int) : Bool :=
  decide (insertConflictCount db agentId start endT > 0)

/-- A fresh serial id for an INSERT. -/
def freshId (db : List Schedule) : Int :=
  (db.foldr (fun r m => max r.id m) 0) + 1

/-- Phase 2 of `ScheduleModel.Insert`: the INSERT statement
(property_schedule.go:137-158).  Only the seven listed columns are
supplied plus `reschedule_count = 0`; the table assigns the id,
`created_at = NOW()` and `version = 1`, and the reschedule timestamps
default to NULL.  Returns the new table and the inserted row. -/
def insertWrite (now : Int) (db : List Schedule) (s : Schedule) :
    List Schedule × Schedule :=
  let row : Schedule :=
    { s with id := freshId db, rescheduleCount := 0,
             originalScheduledAt := none, lastRescheduledAt := none,
             createdAt := now, version := 1 }
  (db ++ [row], row)

/-- Mirrors `ScheduleModel.Insert` (property_schedule.go:104-159): the
conflict check followed by the insert.  In the Go code these are two
separate auto-committed SQL statements, not one transaction. -/
def ScheduleModel.insert (now : Int) (db : List Schedule) (s : Schedule) :
    Except SchedErr (List Schedule × Schedule) :=
  let endTime := s.scheduledAt + s.durationMinutes
  if insertConflict db s.agentId s.scheduledAt endTime then
    .error .scheduleConflict
  else
    .ok (insertWrite now db s)

/-- Mirrors `ScheduleModel.Get` (property_schedule.go:163-204). -/
def ScheduleModel.get (db : List Schedule) (id : Int) :
    Except SchedErr Schedule :=
  if id < 1 then .error .notFound
  else
    match db.find? (fun r => decide (r.id = id)) with
    | none => .error .notFound
    | some r => .ok r

/-- The row transformation of the UPDATE in `ScheduleModel.UpdateStatus`
(property_schedule.go:343-347): `SET status = $1, version = version + 1`. -/
def updateStatusRow (status : String) (r : Schedule) : Schedule :=
  { r with status := status, version := r.version + 1 }

/-- Mirrors `ScheduleModel.UpdateStatus` (property_schedule.go:342-363):
a conditional UPDATE on `id AND version`; zero rows matched means
`sql.ErrNoRows` from RETURNING, surfaced as `ErrEditConflict`. -/
def ScheduleModel.updateStatus (db : List Schedule) (id : Int)
    (status : String) (version : Int) : Except SchedErr (List Schedule) :=
  if db.any (fun r => decide (r.id = id ∧ r.version = version)) then
    .ok (db.map (fun r => if r.id = id ∧ r.version = version then
      updateStatusRow status r else r))
  else
    .error .editConflict

/-- Mirrors `ScheduleModel.Delete` (property_schedule.go:366-391). -/
def ScheduleModel.delete (db : List Schedule) (id : Int) :
    Except SchedErr (List Schedule) :=
  if id < 1 then .error .notFound
  else if db.any (fun r => decide (r.id = id)) then
    .ok (db.filter (fun r => decide (¬ r.id = id)))
  else .error .notFound

/-- The conflict SELECT of `ScheduleModel.Reschedule`
(property_schedule.go:437-456): like the insert check but excluding the
appointment being moved (`id != $2`). -/
def rescheduleConflictCount (db : List Schedule) (agentId id start endT : Int) : Nat :=
  (db.filter (fun r => decide (r.agentId = agentId ∧ ¬ r.id = id ∧
    (r.status = "pending" ∨ r.status = "confirmed") ∧
    r.scheduledAt < endT ∧ r.scheduledAt + r.durationMinutes > start))).length

/-- The row transformation of the UPDATE in `ScheduleModel.Reschedule`
(property_schedule.go:467-476): sets the new time and duration, increments
`reschedule_count`, `original_scheduled_at = COALESCE(original_scheduled_at, $3)`
with `$3` the fetched schedule's `ScheduledAt` (`origParam` here),
`last_rescheduled_at = NOW()`, `version = version + 1`. -/
def rescheduleRow (newScheduledAt newDuration origParam now : Int)
    (r : Schedule) : Schedule :=
  { r with scheduledAt := newScheduledAt, durationMinutes := newDuration,
           rescheduleCount := r.rescheduleCount + 1,
           originalScheduledAt := some (r.originalScheduledAt.getD origParam),
           lastRescheduledAt := some now,
           version := r.version + 1 }

/-- Mirrors `ScheduleModel.Reschedule` (property_schedule.go:426-495):
fetch the schedule, run the conflict check for the new window excluding
this appointment (returning `ErrScheduleConflict` on any hit, before the
version is ever compared), then run the conditional UPDATE on
`id AND version`; zero rows matched is `ErrEditConflict`. -/
def ScheduleModel.reschedule (now : Int) (db : List Schedule) (id : Int)
    (newScheduledAt newDuration version : Int) :
    Except SchedErr (List Schedule) :=
  match ScheduleModel.get db id with
  | .error e => .error e
  | .ok sched =>
    let newEndTime := newScheduledAt + newDuration
    if rescheduleConflictCount db sched.agentId id newScheduledAt newEndTime > 0 then
      .error .scheduleConflict
    else if db.any (fun r => decide (r.id = id ∧ r.version = version)) then
      .ok (db.map (fun r => if r.id = id ∧ r.version = version then
        rescheduleRow newScheduledAt newDuration sched.scheduledAt now r else r))
    else
      .error .editConflict

/-!  The HTTP handlers (cmd/api/property_schedule.go), modelled from the
point after routing, authentication and ownership/role checks; those are
external to the scheduling engine.  A handler result carries the table
after the request (unchanged on every failure path, since the Go code
returns before touching the database) together with the response kind. -/

/-- The body of a create request (`createScheduleHandler`, input struct). -/
structure CreateInput where
  scheduledAt : Int
  durationMinutes : Int
  notes : String
deriving Repr, DecidableEq

/-- The body of a reschedule request (`rescheduleUserScheduleHandler`,
input struct): duration and notes are optional pointers in Go. -/
structure RescheduleInput where
  scheduledAt : Int
  durationMinutes : Option Int
  notes : Option String
deriving Repr, DecidableEq

/-- The response kinds a schedule handler can produce (after auth). -/
inductive HandlerResult where
  | failedValidation (errors : List (String × String))
  | editConflictResp
  | notFoundResp
  | badRequestResp
  | ok (db : List Schedule) (row : Option Schedule)
deriving Repr, DecidableEq

/-- Mirrors `createScheduleHandler` (cmd/api/property_schedule.go:19-112)
from the point where property, user and agent are resolved: default the
duration to 60 when the supplied value is 0, build the pending schedule,
validate, insert (mapping `ErrScheduleConflict` to a validation response
with an added `scheduled_at` error, as the handler does). -/
def createScheduleHandler (now : Int) (db : List Schedule)
    (propertyId userId agentId : Int) (input : CreateInput) : HandlerResult :=
  let durationMinutes := if input.durationMinutes = 0 then 60 else input.durationMinutes
  let schedule : Schedule :=
    { id := 0, propertyId := propertyId, userId := userId, agentId := agentId,
      scheduledAt := input.scheduledAt, durationMinutes := durationMinutes,
      status := "pending", notes := input.notes,
      rescheduleCount := 0, originalScheduledAt := none,
      lastRescheduledAt := none, createdAt := 0, version := 0 }
  let v := ValidateSchedule now Validator.new schedule
  if v.valid then
    match ScheduleModel.insert now db schedule with
    | .error .scheduleConflict =>
        .failedValidation
          ((v.addError "scheduled_at" "this time slot is already booked").errors)
    | .error _ => .badRequestResp
    | .ok res => .ok res.1 (some res.2)
  else
    .failedValidation v.errors

/-- Mirrors `cancelUserScheduleHandler` (cmd/api/property_schedule.go:181-229)
after the ownership check: fetch, reject terminal statuses with a bad
request, otherwise conditionally update the status to cancelled using the
just-read version. -/
def cancelUserScheduleHandler (db : List Schedule) (id : Int) : HandlerResult :=
  match ScheduleModel.get db id with
  | .error _ => .notFoundResp
  | .ok schedule =>
    if schedule.status = "cancelled" ∨ schedule.status = "completed" then
      .badRequestResp
    else
      match ScheduleModel.updateStatus db id "cancelled" schedule.version with
      | .error .editConflict => .editConflictResp
      | .error _ => .badRequestResp
      | .ok db2 => .ok db2 none

/-- Mirrors `updateAgentScheduleStatusHandler`
(cmd/api/property_schedule.go:316-391) after the agent/ownership checks:
fetch, validate only that the target status is one of
confirmed/cancelled/completed (the current status of the record is never
examined), conditionally update, then re-fetch the updated schedule. -/
def updateAgentScheduleStatusHandler (db : List Schedule) (id : Int)
    (inputStatus : String) : HandlerResult :=
  match ScheduleModel.get db id with
  | .error _ => .notFoundResp
  | .ok schedule =>
    let v := (Validator.new).check
      (stringIn inputStatus ["confirmed", "cancelled", "completed"]) "status"
      "must be confirmed, cancelled, or completed"
    if v.valid then
      match ScheduleModel.updateStatus db id inputStatus schedule.version with
      | .error .editConflict => .editConflictResp
      | .error _ => .badRequestResp
      | .ok db2 =>
        match ScheduleModel.get db2 id with
        | .error _ => .badRequestResp
        | .ok updated => .ok db2 (some updated)
    else
      .failedValidation v.errors

/-- Mirrors `rescheduleUserScheduleHandler`
(cmd/api/property_schedule.go:416-558) after the ownership check: fetch,
take the current duration when none is supplied, validate with
`ValidateReschedule`, perform the model reschedule with the just-read
version, then re-fetch the updated schedule.  The `input.Notes` branch in
the Go handler only mutates a local copy that is immediately overwritten
by the final re-fetch and is never written to the database, so the input
notes do not enter the result. -/
def rescheduleUserScheduleHandler (now : Int) (db : List Schedule) (id : Int)
    (input : RescheduleInput) : HandlerResult :=
  match ScheduleModel.get db id with
  | .error _ => .notFoundResp
  | .ok schedule =>
    let newDuration := input.durationMinutes.getD schedule.durationMinutes
    let v := ValidateReschedule now Validator.new schedule input.scheduledAt newDuration
    if v.valid then
      match ScheduleModel.reschedule now db id input.scheduledAt newDuration
          schedule.version with
      | .error .scheduleConflict =>
          .failedValidation
            ((v.addError "scheduled_at" "this time slot is already booked").errors)
      | .error .editConflict => .editConflictResp
      | .error _ => .notFoundResp
      | .ok db2 =>
        match ScheduleModel.get db2 id with
        | .error _ => .badRequestResp
        | .ok updated => .ok db2 (some updated)
    else
      .failedValidation v.errors

/-- The per-agent no-overlap invariant of §3 of the spec: no two active
(pending/confirmed) appointments of one agent have overlapping half-open
intervals.  Used to exhibit states the code can reach that violate it. -/
def schedulesOverlap (r1 r2 : Schedule) : Bool :=
  decide (r1.agentId = r2.agentId ∧
    (r1.status = "pending" ∨ r1.status = "confirmed") ∧
    (r2.status = "pending" ∨ r2.status = "confirmed") ∧
    r1.scheduledAt < r2.scheduledAt + r2.durationMinutes ∧
    r2.scheduledAt < r1.scheduledAt + r1.durationMinutes)

/-- Pairwise absence of overlaps in a table. -/
def noOverlap : List Schedule → Bool
  | [] => true
  | r :: rest => (rest.all (fun r2 => !(schedulesOverlap r r2))) && noOverlap rest

/-!  Concrete scenario data.  Instants are minutes from 2025-06-01T00:00Z,
so 600 is 10:00Z, 630 is 10:30Z, 660 is 11:00Z, 720 is 12:00Z. -/

/-- Scenario A/B of the spec: agent 7 holds a confirmed appointment at
10:00Z for 60 minutes. -/
def apptAgent7 : Schedule :=
  { id := 1, propertyId := 1, userId := 2, agentId := 7,
    scheduledAt := 600, durationMinutes := 60, status := "confirmed",
    notes := "", rescheduleCount := 0, originalScheduledAt := none,
    lastRescheduledAt := none, createdAt := 0, version := 1 }

/-- Scenario A request: agent 7, 10:30Z for 30 minutes (overlapping). -/
def reqOverlapping : Schedule :=
  { apptAgent7 with id := 0, scheduledAt := 630, durationMinutes := 30,
                    status := "pending", version := 0 }

/-- Scenario B request: agent 7, 11:00Z for 30 minutes (adjacent). -/
def reqAdjacent : Schedule :=
  { apptAgent7 with id := 0, scheduledAt := 660, durationMinutes := 30,
                    status := "pending", version := 0 }

/-- Scenario D request: the schedule value handed to `Insert` by a create
request for agent 7 at 10:00Z for 60 minutes. -/
def concurrentReq : Schedule :=
  { apptAgent7 with id := 0, status := "pending", version := 0 }

/-- A pending appointment of agent 1 at 10:00Z whose current version is 5
(so version 4 is stale). -/
def rowStaleTarget : Schedule :=
  { id := 1, propertyId := 1, userId := 2, agentId := 1,
    scheduledAt := 600, durationMinutes := 60, status := "pending",
    notes := "", rescheduleCount := 0, originalScheduledAt := none,
    lastRescheduledAt := none, createdAt := 0, version := 5 }

/-- A second pending appointment of agent 1 at 12:00Z for 60 minutes. -/
def rowBlocking : Schedule :=
  { rowStaleTarget with id := 2, scheduledAt := 720, version := 1 }

/-- A cancelled appointment of agent 7. -/
def cancelledRow : Schedule :=
  { apptAgent7 with status := "cancelled" }

/-- An appointment that has already been rescheduled three times. -/
def rowMaxReschedules : Schedule :=
  { rowStaleTarget with rescheduleCount := 3, version := 1,
                        originalScheduledAt := some 300 }

/-!  Helper lemmas about the validator: errors are only ever added, a
failed check leaves the validator invalid, and the first failed check on a
fresh validator records its error. -/

theorem validator_addError_mem (v : Validator) (k m : String) (p : String × String)
    (h : p ∈ v.errors) : p ∈ (v.addError k m).errors := by
  unfold Validator.addError
  split
  · exact h
  · exact List.mem_append_left _ h

theorem validator_check_mem (v : Validator) (b : Bool) (k m : String) (p : String × String)
    (h : p ∈ v.errors) : p ∈ (v.check b k m).errors := by
  unfold Validator.check
  split
  · exact h
  · exact validator_addError_mem v k m p h

theorem validator_check_false_ne_nil (v : Validator) (k m : String) :
    (v.check false k m).errors ≠ [] := by
  unfold Validator.check Validator.addError
  simp only [Bool.false_eq_true, if_false]
  split
  · rename_i h
    obtain ⟨p, hp, _⟩ := List.any_eq_true.mp h
    exact List.ne_nil_of_mem hp
  · simp

theorem validator_check_ne_nil (v : Validator) (b : Bool) (k m : String)
    (h : v.errors ≠ []) : (v.check b k m).errors ≠ [] := by
  obtain ⟨p, hp⟩ := List.exists_mem_of_ne_nil _ h
  exact List.ne_nil_of_mem (validator_check_mem v b k m p hp)

theorem validator_invalid_of_ne_nil (v : Validator) (h : v.errors ≠ []) :
    v.valid = false := by
  unfold Validator.valid
  simpa [List.isEmpty_iff] using h

/-- A schedule whose time is not strictly in the future never validates. -/
theorem validateSchedule_invalid_of_not_future (now : Int) (v : Validator) (s : Schedule)
    (h : ¬ now < s.scheduledAt) : (ValidateSchedule now v s).valid = false := by
  unfold ValidateSchedule
  apply validator_invalid_of_ne_nil
  apply validator_check_ne_nil
  apply validator_check_ne_nil
  apply validator_check_ne_nil
  apply validator_check_ne_nil
  rw [decide_eq_false h]
  exact validator_check_false_ne_nil _ _ _

/-!  Helper lemmas about the repository model: with distinct primary keys
a row is determined by its id, `Get` finds exactly the member row, and the
conditional UPDATEs of `UpdateStatus`/`Reschedule` either match exactly
the addressed row or touch nothing. -/

theorem row_eq_of_id_eq {db : List Schedule} (hnd : (db.map fun x => x.id).Nodup)
    {a b : Schedule} (ha : a ∈ db) (hb : b ∈ db) (h : a.id = b.id) : a = b :=
  List.inj_on_of_nodup_map hnd ha hb h

theorem get_ok_mem {db : List Schedule} {id : Int} {r : Schedule}
    (h : ScheduleModel.get db id = .ok r) : r ∈ db ∧ r.id = id ∧ 1 ≤ id := by
  unfold ScheduleModel.get at h
  split at h
  · exact absurd h (by simp)
  · rename_i hpos
    split at h
    · exact absurd h (by simp)
    · rename_i x hfind
      obtain rfl : x = r := by injection h
      refine ⟨List.mem_of_find?_eq_some hfind, ?_, by omega⟩
      have := List.find?_some hfind
      simpa using this

theorem get_eq_ok {db : List Schedule} {id : Int} {r : Schedule}
    (hnd : (db.map fun x => x.id).Nodup) (hr : r ∈ db) (hid : r.id = id)
    (hpos : 1 ≤ id) : ScheduleModel.get db id = .ok r := by
  unfold ScheduleModel.get
  rw [if_neg (by omega)]
  cases hfind : db.find? (fun x => decide (x.id = id)) with
  | none =>
    have := List.find?_eq_none.mp hfind r hr
    simp [hid] at this
  | some x =>
    have hx : x ∈ db := List.mem_of_find?_eq_some hfind
    have hxid : x.id = id := by simpa using List.find?_some hfind
    rw [row_eq_of_id_eq hnd hx hr (by rw [hxid, hid])]

theorem any_match_true {db : List Schedule} {id ver : Int} {r : Schedule}
    (hr : r ∈ db) (hid : r.id = id) (hver : r.version = ver) :
    db.any (fun x => decide (x.id = id ∧ x.version = ver)) = true :=
  List.any_eq_true.mpr ⟨r, hr, by simp [hid, hver]⟩

theorem any_match_false {db : List Schedule} {id ver : Int} {r : Schedule}
    (hnd : (db.map fun x => x.id).Nodup) (hr : r ∈ db) (hid : r.id = id)
    (hver : r.version ≠ ver) :
    db.any (fun x => decide (x.id = id ∧ x.version = ver)) = false := by
  by_contra hc
  rw [Bool.not_eq_false, List.any_eq_true] at hc
  obtain ⟨x, hx, hpx⟩ := hc
  rw [decide_eq_true_eq] at hpx
  have : x = r := row_eq_of_id_eq hnd hx hr (by rw [hpx.1, hid])
  exact hver (this ▸ hpx.2)

theorem map_cond_noop {db : List Schedule} {id ver : Int} (f : Schedule → Schedule)
    (h : db.any (fun x => decide (x.id = id ∧ x.version = ver)) = false) :
    db.map (fun x => if x.id = id ∧ x.version = ver then f x else x) = db := by
  have hall : ∀ x ∈ db, ¬ (x.id = id ∧ x.version = ver) := by
    intro x hx hc
    rw [Bool.eq_false_iff] at h
    exact h (List.any_eq_true.mpr ⟨x, hx, by simp [hc.1, hc.2]⟩)
  calc db.map (fun x => if x.id = id ∧ x.version = ver then f x else x)
      = db.map (fun x => x) := List.map_congr_left (fun x hx => if_neg (hall x hx))
    _ = db := List.map_id' db

theorem updateStatus_ok_elim {db db2 : List Schedule} {id ver : Int} {st : String}
    (h : ScheduleModel.updateStatus db id st ver = .ok db2) :
    db.any (fun x => decide (x.id = id ∧ x.version = ver)) = true ∧
    db2 = db.map (fun x => if x.id = id ∧ x.version = ver then
      updateStatusRow st x else x) := by
  unfold ScheduleModel.updateStatus at h
  split at h
  · rename_i hany
    exact ⟨hany, by injection h with h2; exact h2.symm⟩
  · exact absurd h (by simp)

theorem reschedule_ok_elim {now : Int} {db db2 : List Schedule} {id newT newD ver : Int}
    (h : ScheduleModel.reschedule now db id newT newD ver = .ok db2) :
    ∃ sched, ScheduleModel.get db id = .ok sched ∧
      db.any (fun x => decide (x.id = id ∧ x.version = ver)) = true ∧
      db2 = db.map (fun x => if x.id = id ∧ x.version = ver then
        rescheduleRow newT newD sched.scheduledAt now x else x) := by
  unfold ScheduleModel.reschedule at h
  cases hget : ScheduleModel.get db id with
  | error e => rw [hget] at h; exact absurd h (by simp)
  | ok sched =>
    rw [hget] at h
    simp only [] at h
    split at h
    · exact absurd h (by simp)
    · split at h
      · rename_i hany
        exact ⟨sched, rfl, hany, by injection h with h2; exact h2.symm⟩
      · exact absurd h (by simp)

/-- With distinct ids, a successful `Reschedule` of appointment `id` found
row `r`, matched exactly it (so the supplied version was `r.version`), and
produced the table in which the addressed row, and only it, was replaced
by `rescheduleRow` with `r.scheduledAt` as the COALESCE argument. -/
theorem reschedule_ok_rows {now : Int} {db db2 : List Schedule} {id newT newD ver : Int}
    (hnd : (db.map fun x => x.id).Nodup)
    (h : ScheduleModel.reschedule now db id newT newD ver = .ok db2) :
    ∃ r ∈ db, r.id = id ∧ r.version = ver ∧
      ScheduleModel.get db id = .ok r ∧
      ∀ r2 ∈ db2, (r2.id = id → r2 = rescheduleRow newT newD r.scheduledAt now r) ∧
        (¬ r2.id = id → r2 ∈ db) := by
  obtain ⟨sched, hget, hany, hdb2⟩ := reschedule_ok_elim h
  obtain ⟨hmem, hid, _⟩ := get_ok_mem hget
  obtain ⟨x, hx, hpx⟩ := List.any_eq_true.mp hany
  rw [decide_eq_true_eq] at hpx
  have hxs : x = sched := row_eq_of_id_eq hnd hx hmem (by rw [hpx.1, hid])
  refine ⟨sched, hmem, hid, by rw [← hxs, hpx.2], hget, ?_⟩
  intro r2 hr2
  rw [hdb2] at hr2
  obtain ⟨y, hy, hyr2⟩ := List.mem_map.mp hr2
  by_cases hc : y.id = id ∧ y.version = ver
  · have hys : y = sched := row_eq_of_id_eq hnd hy hmem (by rw [hc.1, hid])
    rw [if_pos hc] at hyr2
    constructor
    · intro _
      rw [← hyr2, hys]
    · intro hne
      exact absurd (by rw [← hyr2, hys]; simp [rescheduleRow, hid]) hne
  · rw [if_neg hc] at hyr2
    constructor
    · intro hr2id
      exfalso
      have hys : y = sched := row_eq_of_id_eq hnd hy hmem (by rw [hyr2, hr2id, hid])
      apply hc
      rw [hys]
      exact ⟨hid, hxs ▸ hpx.2⟩
    · intro _
      rw [← hyr2]
      exact hy

/-- Analogue of `reschedule_ok_rows` for `UpdateStatus`. -/
theorem updateStatus_ok_rows {db db2 : List Schedule} {id ver : Int} {st : String}
    (hnd : (db.map fun x => x.id).Nodup)
    (h : ScheduleModel.updateStatus db id st ver = .ok db2) :
    ∃ r ∈ db, r.id = id ∧ r.version = ver ∧
      ∀ r2 ∈ db2, (r2.id = id → r2 = updateStatusRow st r) ∧
        (¬ r2.id = id → r2 ∈ db) := by
  obtain ⟨hany, hdb2⟩ := updateStatus_ok_elim h
  obtain ⟨x, hx, hpx⟩ := List.any_eq_true.mp hany
  rw [decide_eq_true_eq] at hpx
  refine ⟨x, hx, hpx.1, hpx.2, ?_⟩
  intro r2 hr2
  rw [hdb2] at hr2
  obtain ⟨y, hy, hyr2⟩ := List.mem_map.mp hr2
  by_cases hc : y.id = id ∧ y.version = ver
  · have hyx : y = x := row_eq_of_id_eq hnd hy hx (by rw [hc.1, hpx.1])
    rw [if_pos hc] at hyr2
    constructor
    · intro _
      rw [← hyr2, hyx]
    · intro hne
      exact absurd (by rw [← hyr2, hyx]; simp [updateStatusRow, hpx.1]) hne
  · rw [if_neg hc] at hyr2
    constructor
    · intro hr2id
      exfalso
      have hyx : y = x := row_eq_of_id_eq hnd hy hx (by rw [hyr2, hr2id, hpx.1])
      exact hc (hyx ▸ ⟨hpx.1, hpx.2⟩)
    · intro _
      rw [← hyr2]
      exact hy

/-- With `rescheduleCount` at the cap, `ValidateReschedule` on a fresh
validator records the limit error and is invalid, whatever the proposed
new time and duration are. -/
theorem validateReschedule_max_invalid (now newT newD : Int) (s : Schedule)
    (h : ¬ s.rescheduleCount < 3) :
    ("reschedule", "maximum reschedule limit (3) reached")
      ∈ (ValidateReschedule now Validator.new s newT newD).errors ∧
    (ValidateReschedule now Validator.new s newT newD).valid = false := by
  have hmem : ("reschedule", "maximum reschedule limit (3) reached")
      ∈ (ValidateReschedule now Validator.new s newT newD).errors := by
    unfold ValidateReschedule
    apply validator_check_mem
    apply validator_check_mem
    apply validator_check_mem
    apply validator_check_mem
    apply validator_check_mem
    apply validator_check_mem
    rw [decide_eq_false h]
    unfold Validator.check Validator.addError Validator.new
    simp
  exact ⟨hmem, validator_invalid_of_ne_nil _ (List.ne_nil_of_mem hmem)⟩

/-- A reschedule request that validates was made on an appointment with
fewer than 3 reschedules. -/
theorem validateReschedule_valid_count (now newT newD : Int) (s : Schedule)
    (h : (ValidateReschedule now Validator.new s newT newD).valid = true) :
    s.rescheduleCount < 3 := by
  by_contra hc
  have := (validateReschedule_max_invalid now newT newD s hc).2
  rw [h] at this
  exact absurd this (by simp)

/-- When "now" is not strictly more than two hours before the current
`scheduledAt`, `ValidateReschedule` is invalid, whatever the proposed new
time and duration are. -/
theorem validateReschedule_invalid_of_notice (now newT newD : Int) (v : Validator)
    (s : Schedule) (h : ¬ now < s.scheduledAt - 120) :
    (ValidateReschedule now v s newT newD).valid = false := by
  unfold ValidateReschedule
  apply validator_invalid_of_ne_nil
  apply validator_check_ne_nil
  apply validator_check_ne_nil
  rw [decide_eq_false h]
  exact validator_check_false_ne_nil _ _ _

/-!  Claim theorems. -/

/-- Claim C1: a Create fails with `ScheduleConflict` iff some existing
appointment of the agent with status pending or confirmed satisfies
`existing.scheduledAt < candidateEnd` and
`existing.scheduledAt + existing.duration > candidateStart` (half-open
semantics, so adjacent intervals never conflict); concretely, against a
confirmed appointment of agent 7 at 10:00Z for 60 minutes, a request at
10:30Z for 30 minutes conflicts and a request at 11:00Z for 30 minutes is
accepted. -/
theorem c1_insert_conflict_halfopen :
    (∀ now db s, ScheduleModel.insert now db s = .error .scheduleConflict ↔
      ∃ r ∈ db, r.agentId = s.agentId ∧
        (r.status = "pending" ∨ r.status = "confirmed") ∧
        r.scheduledAt < s.scheduledAt + s.durationMinutes ∧
        s.scheduledAt < r.scheduledAt + r.durationMinutes) ∧
    ScheduleModel.insert 0 [apptAgent7] reqOverlapping = .error .scheduleConflict ∧
    ScheduleModel.insert 0 [apptAgent7] reqAdjacent
      = .ok (insertWrite 0 [apptAgent7] reqAdjacent) := by
  refine ⟨?_, rfl, rfl⟩
  intro now db s
  constructor
  · intro h
    simp only [ScheduleModel.insert] at h
    split at h
    · rename_i hc
      unfold insertConflict insertConflictCount at hc
      rw [decide_eq_true_eq, gt_iff_lt, List.length_pos] at hc
      obtain ⟨x, hx⟩ := List.exists_mem_of_ne_nil _ hc
      rw [List.mem_filter, decide_eq_true_eq] at hx
      exact ⟨x, hx.1, hx.2.1, hx.2.2.1, hx.2.2.2.1, hx.2.2.2.2⟩
    · exact absurd h (by simp)
  · rintro ⟨r, hr, h1, h2, h3, h4⟩
    have hc : insertConflict db s.agentId s.scheduledAt
        (s.scheduledAt + s.durationMinutes) = true := by
      unfold insertConflict insertConflictCount
      rw [decide_eq_true_eq, gt_iff_lt, List.length_pos]
      exact List.ne_nil_of_mem
        (List.mem_filter.mpr ⟨hr, decide_eq_true ⟨h1, h2, h3, h4⟩⟩)
    simp only [ScheduleModel.insert, hc, if_true]

/-- Claim C2: the Go `Insert` issues the conflict SELECT and the INSERT as
two separate auto-committed statements with no transaction or table
constraint, so two concurrent identical Create requests for agent 7 can
interleave as check-check-write-write: both conflict checks run against
the initial empty table and pass (first conjunct), after which both rows
are inserted, leaving two overlapping pending appointments for the agent
(second conjunct) — while a serialized second Insert would have failed
with `ScheduleConflict` (third conjunct).  The claim that exactly one of
the two concurrent requests can succeed therefore fails on this code. -/
theorem c2_concurrent_create_double_booking :
    insertConflict [] concurrentReq.agentId concurrentReq.scheduledAt
      (concurrentReq.scheduledAt + concurrentReq.durationMinutes) = false ∧
    noOverlap ((insertWrite 0 ((insertWrite 0 [] concurrentReq).1) concurrentReq).1)
      = false ∧
    ScheduleModel.insert 0 ((insertWrite 0 [] concurrentReq).1) concurrentReq
      = .error .scheduleConflict := by
  exact ⟨by decide, by decide, rfl⟩

/-- Claim C3, counterexample: rescheduling appointment 1 (current version
5) with stale expected version 4 into a window that overlaps appointment 2
fails with `ScheduleConflict`, not `EditConflict`, because `Reschedule`
runs its conflict check before ever comparing the version. -/
theorem c3_counterexample_stale_version_conflict :
    rowStaleTarget.id = 1 ∧ rowStaleTarget.version = 5 ∧ (4 : Int) ≠ 5 ∧
    ScheduleModel.reschedule 0 [rowStaleTarget, rowBlocking] 1 750 60 4
      = .error .scheduleConflict ∧
    SchedErr.scheduleConflict ≠ SchedErr.editConflict := by
  exact ⟨rfl, rfl, by decide, rfl, by decide⟩

/-- Claim C7: the agent status-update handler never examines the current
status, so a transition request on a cancelled appointment does not fail
with `NotEditable`: it succeeds and rewrites the record (here
cancelled → confirmed, version bumped to 2).  The user cancel handler
does reject terminal statuses, but with a generic bad-request, and
`ErrScheduleNotEditable`, though declared in the data layer, is never
returned anywhere. -/
theorem c7_terminal_transition_not_rejected :
    cancelledRow.status = "cancelled" ∧
    updateAgentScheduleStatusHandler [cancelledRow] 1 "confirmed"
      = .ok [{ cancelledRow with status := "confirmed", version := 2 }]
          (some { cancelledRow with status := "confirmed", version := 2 }) ∧
    cancelUserScheduleHandler [cancelledRow] 1 = .badRequestResp := by
  exact ⟨rfl, by decide, by decide⟩

/-- Claim C8: a Create whose `scheduledAt` is not strictly in the future
always fails validation — for every table state — and since the response
is computed before the conflict check or insert and is identical for any
two table states, no conflict check or write is performed and no record
is inserted. -/
theorem c8_past_create_rejected (now : Int) (db db' : List Schedule)
    (propertyId userId agentId : Int) (input : CreateInput)
    (hpast : ¬ now < input.scheduledAt) :
    (∃ errs, createScheduleHandler now db propertyId userId agentId input
      = .failedValidation errs) ∧
    createScheduleHandler now db propertyId userId agentId input
      = createScheduleHandler now db' propertyId userId agentId input := by
  have key : ∀ d : List Schedule,
      createScheduleHandler now d propertyId userId agentId input
        = .failedValidation (ValidateSchedule now Validator.new
            { id := 0, propertyId := propertyId, userId := userId, agentId := agentId,
              scheduledAt := input.scheduledAt,
              durationMinutes :=
                if input.durationMinutes = 0 then 60 else input.durationMinutes,
              status := "pending", notes := input.notes, rescheduleCount := 0,
              originalScheduledAt := none, lastRescheduledAt := none,
              createdAt := 0, version := 0 }).errors := by
    intro d
    have hv := validateSchedule_invalid_of_not_future now Validator.new
      { id := 0, propertyId := propertyId, userId := userId, agentId := agentId,
        scheduledAt := input.scheduledAt,
        durationMinutes :=
          if input.durationMinutes = 0 then 60 else input.durationMinutes,
        status := "pending", notes := input.notes, rescheduleCount := 0,
        originalScheduledAt := none, lastRescheduledAt := none,
        createdAt := 0, version := 0 } hpast
    simp only [createScheduleHandler, hv, Bool.false_eq_true, if_false]
  exact ⟨⟨_, key db⟩, (key db).trans (key db').symm⟩

/-- Claim C8 witness: at the boundary instant (now equal to the requested
time) the create request is rejected and the response does not depend on
the table. -/
theorem c8_past_create_rejected_witness :
    (∃ errs, createScheduleHandler 600 [] 1 2 7
        { scheduledAt := 600, durationMinutes := 60, notes := "" }
      = .failedValidation errs) ∧
    createScheduleHandler 600 [] 1 2 7
        { scheduledAt := 600, durationMinutes := 60, notes := "" }
      = createScheduleHandler 600 [apptAgent7] 1 2 7
        { scheduledAt := 600, durationMinutes := 60, notes := "" } :=
  c8_past_create_rejected 600 [] [apptAgent7] 1 2 7
    { scheduledAt := 600, durationMinutes := 60, notes := "" } (by decide)

/-- Claim C10: a create request supplying `durationMinutes = 0` behaves
exactly like one supplying 60 — the handler replaces 0 by the default 60
before validation, so the zero value is not rejected by the
duration-must-be-positive check — and any appointment it creates has a
60-minute duration. -/
theorem c10_zero_duration_defaults (now : Int) (db : List Schedule)
    (propertyId userId agentId t : Int) (notes : String) :
    createScheduleHandler now db propertyId userId agentId
        { scheduledAt := t, durationMinutes := 0, notes := notes }
      = createScheduleHandler now db propertyId userId agentId
        { scheduledAt := t, durationMinutes := 60, notes := notes } ∧
    (∀ db2 row r, createScheduleHandler now db propertyId userId agentId
        { scheduledAt := t, durationMinutes := 0, notes := notes }
        = .ok db2 row → row = some r → r.durationMinutes = 60) := by
  constructor
  · rfl
  · intro db2 row r hok hrow
    simp only [createScheduleHandler] at hok
    split at hok
    · split at hok
      · split at hok
        · exact absurd hok (by simp)
        · exact absurd hok (by simp)
        · rename_i res hins
          simp only [ScheduleModel.insert] at hins
          split at hins
          · exact absurd hins (by simp)
          · obtain rfl : insertWrite now db _ = res := by injection hins
            obtain ⟨h1, h2⟩ := HandlerResult.ok.inj hok
            rw [← h2] at hrow
            obtain rfl : _ = r := by injection hrow
            rfl
      · exact absurd hok (by simp)
    · rename_i hfalse
      exact absurd trivial hfalse

/-- Claim C10 witness: a concrete create with duration 0 equals the same
create with duration 60, and the row it inserts is a 60-minute
appointment. -/
theorem c10_zero_duration_defaults_witness :
    createScheduleHandler 0 [] 1 2 7
        { scheduledAt := 600, durationMinutes := 0, notes := "" }
      = createScheduleHandler 0 [] 1 2 7
        { scheduledAt := 600, durationMinutes := 60, notes := "" } ∧
    ((insertWrite 0 []
        { id := 0, propertyId := 1, userId := 2, agentId := 7,
          scheduledAt := 600, durationMinutes := 60, status := "pending",
          notes := "", rescheduleCount := 0, originalScheduledAt := none,
          lastRescheduledAt := none, createdAt := 0, version := 0 }).2).durationMinutes
      = 60 :=
  ⟨(c10_zero_duration_defaults 0 [] 1 2 7 600 "").1,
   (c10_zero_duration_defaults 0 [] 1 2 7 600 "").2 _ _ _ rfl rfl⟩

/-- Claim C6: the 2-hour minimum-notice check of reschedule validation is
evaluated against the appointment's current `scheduledAt`: whenever "now"
is not strictly more than 2 hours (120 minutes) before the current
`scheduledAt`, the validation is invalid and the reschedule handler
rejects the request with a validation failure, for every proposed new
time and duration, however far in the future. -/
theorem c6_min_notice_uses_current_time (now id : Int) (db : List Schedule)
    (input : RescheduleInput) (r : Schedule)
    (hget : ScheduleModel.get db id = .ok r)
    (hnotice : ¬ now < r.scheduledAt - 120) :
    (ValidateReschedule now Validator.new r input.scheduledAt
        (input.durationMinutes.getD r.durationMinutes)).valid = false ∧
    rescheduleUserScheduleHandler now db id input
      = .failedValidation (ValidateReschedule now Validator.new r input.scheduledAt
          (input.durationMinutes.getD r.durationMinutes)).errors := by
  have hv := validateReschedule_invalid_of_notice now input.scheduledAt
    (input.durationMinutes.getD r.durationMinutes) Validator.new r hnotice
  refine ⟨hv, ?_⟩
  simp only [rescheduleUserScheduleHandler, hget, hv, Bool.false_eq_true, if_false]

/-- Claim C6 witness: at exactly 2 hours before a 10:00Z appointment, a
request to move it very far into the future is rejected. -/
theorem c6_min_notice_uses_current_time_witness :
    rescheduleUserScheduleHandler 480 [apptAgent7] 1
        { scheduledAt := 1000000, durationMinutes := none, notes := none }
      = .failedValidation (ValidateReschedule 480 Validator.new apptAgent7 1000000
          ((none : Option Int).getD apptAgent7.durationMinutes)).errors :=
  (c6_min_notice_uses_current_time 480 1 [apptAgent7]
      { scheduledAt := 1000000, durationMinutes := none, notes := none }
      apptAgent7 rfl (by decide)).2
/-- Claim C3 (amended): a mutation (UpdateStatus or Reschedule) submitted
with an expectedVersion different from the record's current version fails
and leaves every row unchanged — UpdateStatus always with `EditConflict`,
Reschedule with `EditConflict` unless its conflict check, which runs
before the version is compared, reports `ScheduleConflict` — and a
successful mutation increments the record's version by exactly 1. -/
theorem c3_stale_version_guard (now newT newD ver id : Int) (st : String)
    (db : List Schedule) (r : Schedule)
    (hnd : (db.map fun x => x.id).Nodup) (hr : r ∈ db) (hid : r.id = id)
    (hpos : 1 ≤ id) :
    (r.version ≠ ver →
      ScheduleModel.updateStatus db id st ver = .error .editConflict ∧
      db.map (fun x => if x.id = id ∧ x.version = ver then updateStatusRow st x else x)
        = db ∧
      (ScheduleModel.reschedule now db id newT newD ver = .error .editConflict ∨
       ScheduleModel.reschedule now db id newT newD ver = .error .scheduleConflict) ∧
      db.map (fun x => if x.id = id ∧ x.version = ver then
        rescheduleRow newT newD r.scheduledAt now x else x) = db) ∧
    (∀ db2, ScheduleModel.updateStatus db id st ver = .ok db2 →
      ∀ r2 ∈ db2, r2.id = id → r2.version = r.version + 1) ∧
    (∀ db2, ScheduleModel.reschedule now db id newT newD ver = .ok db2 →
      ∀ r2 ∈ db2, r2.id = id → r2.version = r.version + 1) := by
  refine ⟨?_, ?_, ?_⟩
  · intro hver
    have hany := any_match_false hnd hr hid hver
    have hget := get_eq_ok hnd hr hid hpos
    refine ⟨?_, map_cond_noop _ hany, ?_, map_cond_noop _ hany⟩
    · simp only [ScheduleModel.updateStatus, hany, Bool.false_eq_true, if_false]
    · simp only [ScheduleModel.reschedule, hget]
      by_cases hc : rescheduleConflictCount db r.agentId id newT (newT + newD) > 0
      · right
        rw [if_pos hc]
      · left
        rw [if_neg hc, hany]
        simp
  · intro db2 hok r2 hr2 hid2
    obtain ⟨x, hx, hxid, hxver, hrows⟩ := updateStatus_ok_rows hnd hok
    obtain rfl : x = r := row_eq_of_id_eq hnd hx hr (by rw [hxid, hid])
    rw [(hrows r2 hr2).1 hid2]
    rfl
  · intro db2 hok r2 hr2 hid2
    obtain ⟨x, hx, hxid, hxver, hgetx, hrows⟩ := reschedule_ok_rows hnd hok
    obtain rfl : x = r := row_eq_of_id_eq hnd hx hr (by rw [hxid, hid])
    rw [(hrows r2 hr2).1 hid2]
    rfl

/-- Claim C3 witness: on a one-row table whose appointment has version 5,
submitting version 4 makes UpdateStatus fail with `EditConflict` and makes
the stale Reschedule fail without touching the row, while the conditional
update row-map leaves the table unchanged. -/
theorem c3_stale_version_guard_witness :
    ScheduleModel.updateStatus [rowStaleTarget] 1 "confirmed" 4
        = .error .editConflict ∧
    ([rowStaleTarget].map (fun x => if x.id = 1 ∧ x.version = 4 then
        updateStatusRow "confirmed" x else x)) = [rowStaleTarget] ∧
    (ScheduleModel.reschedule 0 [rowStaleTarget] 1 300 60 4 = .error .editConflict ∨
     ScheduleModel.reschedule 0 [rowStaleTarget] 1 300 60 4
        = .error .scheduleConflict) :=
  have h := (c3_stale_version_guard 0 300 60 4 1 "confirmed" [rowStaleTarget]
    rowStaleTarget (by decide) (by decide) (by decide) (by decide)).1 (by decide)
  ⟨h.1, h.2.1, h.2.2.1⟩
/-- Claim C4: on an appointment whose `rescheduleCount` is 3 the handler
rejects every reschedule request with the maximum-reschedules validation
error, whatever the proposed new time; a successful reschedule increments
`rescheduleCount` by exactly 1 and, having passed the cap check, keeps
every row's count at most 3. -/
theorem c4_reschedule_cap (now id : Int) (db : List Schedule)
    (input : RescheduleInput) (r : Schedule)
    (hnd : (db.map fun x => x.id).Nodup)
    (hget : ScheduleModel.get db id = .ok r) :
    (r.rescheduleCount = 3 →
      rescheduleUserScheduleHandler now db id input
        = .failedValidation (ValidateReschedule now Validator.new r input.scheduledAt
            (input.durationMinutes.getD r.durationMinutes)).errors ∧
      ("reschedule", "maximum reschedule limit (3) reached")
        ∈ (ValidateReschedule now Validator.new r input.scheduledAt
            (input.durationMinutes.getD r.durationMinutes)).errors) ∧
    (∀ db2 row, rescheduleUserScheduleHandler now db id input = .ok db2 row →
      (∀ r2 ∈ db2, r2.id = id → r2.rescheduleCount = r.rescheduleCount + 1) ∧
      ((∀ x ∈ db, x.rescheduleCount ≤ 3) → ∀ x ∈ db2, x.rescheduleCount ≤ 3)) := by
  constructor
  · intro h3
    have hmax := validateReschedule_max_invalid now input.scheduledAt
      (input.durationMinutes.getD r.durationMinutes) r (by omega)
    refine ⟨?_, hmax.1⟩
    simp only [rescheduleUserScheduleHandler, hget, hmax.2, Bool.false_eq_true, if_false]
  · intro db2 row hok
    simp only [rescheduleUserScheduleHandler, hget] at hok
    split at hok
    · rename_i hv
      split at hok
      · exact absurd hok (by simp)
      · exact absurd hok (by simp)
      · exact absurd hok (by simp)
      · rename_i db2x heq
        split at hok
        · exact absurd hok (by simp)
        · rename_i updated hgetup
          obtain ⟨h1, h2⟩ := HandlerResult.ok.inj hok
          subst h1
          have hcount := validateReschedule_valid_count now input.scheduledAt
            (input.durationMinutes.getD r.durationMinutes) r hv
          obtain ⟨x, hx, hxid, hxver, hgetx, hrows⟩ := reschedule_ok_rows hnd heq
          obtain rfl : x = r := by
            have := hget.symm.trans hgetx
            injection this with h
            exact h.symm
          constructor
          · intro r2 hr2 hid2
            rw [(hrows r2 hr2).1 hid2]
            rfl
          · intro hbound y hy
            by_cases hcid : y.id = id
            · rw [(hrows y hy).1 hcid]
              simp only [rescheduleRow]
              omega
            · exact hbound y ((hrows y hy).2 hcid)
    · exact absurd hok (by simp)

/-- Claim C4 witness: an appointment already rescheduled 3 times rejects a
concrete reschedule request with the limit error, which appears among the
reported validation errors. -/
theorem c4_reschedule_cap_witness :
    rescheduleUserScheduleHandler 0 [rowMaxReschedules] 1
        { scheduledAt := 400, durationMinutes := none, notes := none }
      = .failedValidation (ValidateReschedule 0 Validator.new rowMaxReschedules 400
          ((none : Option Int).getD rowMaxReschedules.durationMinutes)).errors ∧
    ("reschedule", "maximum reschedule limit (3) reached")
      ∈ (ValidateReschedule 0 Validator.new rowMaxReschedules 400
          ((none : Option Int).getD rowMaxReschedules.durationMinutes)).errors :=
  (c4_reschedule_cap 0 1 [rowMaxReschedules]
      { scheduledAt := 400, durationMinutes := none, notes := none }
      rowMaxReschedules (by decide) rfl).1 (by decide)
/-- Claim C5: `originalScheduledAt` is NULL on every inserted row, a
reschedule sets it via COALESCE to its previous value when already set and
to the pre-reschedule `scheduledAt` when NULL (so it is set exactly once,
by the first successful reschedule), a status update never touches it, and
every row of a table produced by a successful Reschedule or UpdateStatus
is either an untouched input row or the image of an input row under
exactly these transformations. -/
theorem c5_original_scheduled_at (now newT newD orig ver id : Int) (st : String)
    (db db2 db3 : List Schedule) (s : Schedule)
    (hnd : (db.map fun x => x.id).Nodup) :
    (∀ res, ScheduleModel.insert now db s = .ok res →
      res.2.originalScheduledAt = none) ∧
    ((rescheduleRow newT newD orig now s).originalScheduledAt
      = some (s.originalScheduledAt.getD orig)) ∧
    ((updateStatusRow st s).originalScheduledAt = s.originalScheduledAt) ∧
    (ScheduleModel.reschedule now db id newT newD ver = .ok db2 →
      ∀ r2 ∈ db2, r2 ∈ db ∨ ∃ r ∈ db, r.id = id ∧
        r2 = rescheduleRow newT newD r.scheduledAt now r) ∧
    (ScheduleModel.updateStatus db id st ver = .ok db3 →
      ∀ r2 ∈ db3, r2 ∈ db ∨ ∃ x ∈ db, r2 = updateStatusRow st x) := by
  refine ⟨?_, rfl, rfl, ?_, ?_⟩
  · intro res hins
    simp only [ScheduleModel.insert] at hins
    split at hins
    · exact absurd hins (by simp)
    · obtain rfl : insertWrite now db s = res := by injection hins
      rfl
  · intro hok r2 hr2
    obtain ⟨x, hx, hxid, hxver, hgetx, hrows⟩ := reschedule_ok_rows hnd hok
    by_cases hc : r2.id = id
    · exact Or.inr ⟨x, hx, hxid, (hrows r2 hr2).1 hc⟩
    · exact Or.inl ((hrows r2 hr2).2 hc)
  · intro hok r2 hr2
    obtain ⟨hany, hdb3⟩ := updateStatus_ok_elim hok
    rw [hdb3] at hr2
    obtain ⟨y, hy, hyr2⟩ := List.mem_map.mp hr2
    by_cases hc : y.id = id ∧ y.version = ver
    · rw [if_pos hc] at hyr2
      exact Or.inr ⟨y, hy, hyr2.symm⟩
    · rw [if_neg hc] at hyr2
      exact Or.inl (hyr2 ▸ hy)

/-- Claim C9: `rescheduleRow` (the UPDATE of `Reschedule`) leaves `id`,
`propertyId`, `userId`, `agentId`, `status`, `notes` and `createdAt`
unchanged; every row of a successfully rescheduled table is an untouched
input row or a `rescheduleRow` image of one; and the reschedule handler's
outcome is entirely independent of the notes supplied in the request, so
a notes value sent with a reschedule is never persisted. -/
theorem c9_reschedule_frame (now newT newD orig ver id : Int)
    (db : List Schedule) (s : Schedule) (input : RescheduleInput)
    (n2 : Option String) :
    ((rescheduleRow newT newD orig now s).id = s.id ∧
     (rescheduleRow newT newD orig now s).propertyId = s.propertyId ∧
     (rescheduleRow newT newD orig now s).userId = s.userId ∧
     (rescheduleRow newT newD orig now s).agentId = s.agentId ∧
     (rescheduleRow newT newD orig now s).status = s.status ∧
     (rescheduleRow newT newD orig now s).notes = s.notes ∧
     (rescheduleRow newT newD orig now s).createdAt = s.createdAt) ∧
    (∀ db2, ScheduleModel.reschedule now db id newT newD ver = .ok db2 →
      ∀ r2 ∈ db2, r2 ∈ db ∨ ∃ r ∈ db, ∃ o : Int,
        r2 = rescheduleRow newT newD o now r) ∧
    (rescheduleUserScheduleHandler now db id input
      = rescheduleUserScheduleHandler now db id { input with notes := n2 }) := by
  refine ⟨⟨rfl, rfl, rfl, rfl, rfl, rfl, rfl⟩, ?_, rfl⟩
  intro db2 hok r2 hr2
  obtain ⟨sched, hget, hany, hdb2⟩ := reschedule_ok_elim hok
  rw [hdb2] at hr2
  obtain ⟨y, hy, hyr2⟩ := List.mem_map.mp hr2
  by_cases hc : y.id = id ∧ y.version = ver
  · rw [if_pos hc] at hyr2
    exact Or.inr ⟨y, hy, sched.scheduledAt, hyr2.symm⟩
  · rw [if_neg hc] at hyr2
    exact Or.inl (hyr2 ▸ hy)

/-- Claim C5 witness: a freshly inserted row has no original time; a
reschedule of a row with no original time records the pre-reschedule
start; and on a concrete successful reschedule every resulting row is an
input row or a reschedule image of one. -/
theorem c5_original_scheduled_at_witness :
    ((insertWrite 0 [rowStaleTarget] reqAdjacent).2).originalScheduledAt = none ∧
    (rescheduleRow 400 60 600 0 reqAdjacent).originalScheduledAt
      = some (reqAdjacent.originalScheduledAt.getD 600) ∧
    (∀ r2 ∈ [rescheduleRow 400 60 600 0 rowStaleTarget],
      r2 ∈ [rowStaleTarget] ∨ ∃ r ∈ [rowStaleTarget], r.id = 1 ∧
        r2 = rescheduleRow 400 60 r.scheduledAt 0 r) :=
  have h := c5_original_scheduled_at 0 400 60 600 5 1 "confirmed"
    [rowStaleTarget] [rescheduleRow 400 60 600 0 rowStaleTarget]
    [updateStatusRow "confirmed" rowStaleTarget] reqAdjacent (by decide)
  ⟨h.1 (insertWrite 0 [rowStaleTarget] reqAdjacent) rfl, h.2.1, h.2.2.2.1 rfl⟩

/-- Claim C9 witness: a concrete reschedule image keeps the notes, the
handler's result is unchanged when the request carries a notes value, and
the rows of a concrete successful reschedule are input rows or reschedule
images. -/
theorem c9_reschedule_frame_witness :
    ((rescheduleRow 400 60 600 0 rowStaleTarget).notes = rowStaleTarget.notes) ∧
    (rescheduleUserScheduleHandler 0 [rowStaleTarget] 1
        { scheduledAt := 400, durationMinutes := none, notes := none }
      = rescheduleUserScheduleHandler 0 [rowStaleTarget] 1
        { scheduledAt := 400, durationMinutes := none, notes := some "ignored" }) ∧
    (∀ r2 ∈ [rescheduleRow 400 60 600 0 rowStaleTarget],
      r2 ∈ [rowStaleTarget] ∨ ∃ r ∈ [rowStaleTarget], ∃ o : Int,
        r2 = rescheduleRow 400 60 o 0 r) :=
  have h := c9_reschedule_frame 0 400 60 600 5 1 [rowStaleTarget] rowStaleTarget
    { scheduledAt := 400, durationMinutes := none, notes := none } (some "ignored")
  ⟨h.1.2.2.2.2.2.1, h.2.2, h.2.1 [rescheduleRow 400 60 600 0 rowStaleTarget] rfl⟩
